import Mathlib

/-!
Verification development for the CMKL OpenHouse event check-in server.

The definitions below are shallow embeddings of the JavaScript source:

* `detectSQLInjection` and its pattern set embed the validation gateway of
  `src/api/server.js` (lines 78-138);
* the sheet model (`Row`, `findUserByEmail`, `updateUserRecord`, the
  `/api/harty/*` endpoint functions) embeds the Google-Sheets record store
  adapter and key-progress logic of `src/api/server.js`;
* `airtableSubmit` embeds the Airtable submit handler of
  `src/unnamed/part_004` (body executed under `withEmailLock`);
* `withRetrySheets` and `withRetryAirtable` embed the two `withRetry`
  variants (`src/server.js` / `src/api/server.js` lines 358-380, and
  `src/unnamed/part_004` lines 21-51);
* `collectKey` and friends embed the in-memory game-session manager;
* `CStep` is a small-step interleaving model of the per-email lock
  (`withEmailLock`) around the find-then-create submit sequence.
-/

/-! ### Generic list helpers -/

/-- Match a literal character sequence as a prefix, returning the remainder. -/
def matchLit : List Char → List Char → Option (List Char)
  | [], s => some s
  | _, [] => none
  | p :: ps, c :: cs => if p = c then matchLit ps cs else none

/-- Substring containment (JS `String.prototype.includes` / regex literal). -/
def containsSub (pat : List Char) : List Char → Bool
  | [] => (matchLit pat []).isSome
  | c :: cs => (matchLit pat (c :: cs)).isSome || containsSub pat cs

/-- Update the element at an index, leaving the list unchanged when out of
range (the only writes the handlers issue are at indices returned by a
prior find). -/
def updateAt {α : Type} : List α → Nat → (α → α) → List α
  | [], _, _ => []
  | r :: rest, 0, f => f r :: rest
  | r :: rest, n+1, f => r :: updateAt rest n f

theorem updateAt_getElem? {α : Type} (l : List α) (j : Nat) (f : α → α) (i : Nat) :
    (updateAt l j f)[i]? = if i = j then (l[j]?).map f else l[i]? := by
  induction l generalizing i j with
  | nil => simp [updateAt]
  | cons a rest ih =>
    cases j with
    | zero =>
      cases i with
      | zero => simp [updateAt]
      | succ i => simp [updateAt]
    | succ j =>
      cases i with
      | zero => simp [updateAt]
      | succ i =>
        simp only [updateAt, List.getElem?_cons_succ, ih]
        by_cases h : i = j <;> simp [h]

theorem updateAt_length {α : Type} (l : List α) (j : Nat) (f : α → α) :
    (updateAt l j f).length = l.length := by
  induction l generalizing j with
  | nil => rfl
  | cons a rest ih =>
    cases j with
    | zero => rfl
    | succ j => simpa [updateAt] using ih j

/-! ### Validation gateway (`src/api/server.js` lines 78-138)

`SQL_INJECTION_PATTERNS` and `ADVANCED_PATTERNS` are regular expressions
tested against `input.toLowerCase().trim()`; each one is embedded here as a
decidable scanner over the character list.  All the source regexes are
alternations of literals, word-bounded keywords (`\b`), literal pairs
separated by `\s+`, literals followed by a single `\s`, and the
`/\*.*\*/` comment pair, so these scanners cover them exactly. -/

/-- Word character for the regex `\b` boundary. -/
def isWordChar (c : Char) : Bool := c.isAlphanum || c = '_'

/-- Keyword occurrence at the head of `s` with `\b` boundaries on both sides;
`prev` is the character immediately before `s`, if any. -/
def wbHere (prev : Option Char) (kw : List Char) (s : List Char) : Bool :=
  match matchLit kw s with
  | none => false
  | some rest =>
    (match prev with
     | none => true
     | some p => !(isWordChar p)) &&
    (match rest with
     | [] => true
     | c :: _ => !(isWordChar c))

def wbScan (kw : List Char) : Option Char → List Char → Bool
  | _, [] => false
  | prev, c :: cs => wbHere prev kw (c :: cs) || wbScan kw (some c) cs

/-- Occurrence of `kw` with word boundaries anywhere in `s` (regex `\bkw\b`). -/
def wordOccur (kw : List Char) (s : List Char) : Bool := wbScan kw none s

/-- After at least one whitespace character has been consumed: consume more
whitespace or satisfy the target predicate (regex tail `\s+` before target). -/
def afterSpacesP (p : List Char → Bool) : List Char → Bool
  | [] => false
  | c :: cs => p (c :: cs) || (c.isWhitespace && afterSpacesP p cs)

/-- Match `w1` then `\s+` then `w2` at the head of `s`. -/
def spacedHere (w1 w2 : List Char) (s : List Char) : Bool :=
  match matchLit w1 s with
  | none => false
  | some rest =>
    match rest with
    | [] => false
    | c :: cs =>
      c.isWhitespace && afterSpacesP (fun t => (matchLit w2 t).isSome) cs

/-- Occurrence of `w1\s+w2` anywhere in `s`. -/
def spacedOccur (w1 w2 : List Char) : List Char → Bool
  | [] => false
  | c :: cs => spacedHere w1 w2 (c :: cs) || spacedOccur w1 w2 cs

/-- Occurrence of `w` followed by a single `\s` anywhere in `s`. -/
def litThenSpace (w : List Char) : List Char → Bool
  | [] => false
  | c :: cs =>
    (match matchLit w (c :: cs) with
     | some (d :: _) => d.isWhitespace
     | _ => false) || litThenSpace w cs

/-- Scan for the closing half of the `/\*.*\*/` regex: `*/` reachable
without crossing a newline (`.` does not match newline). -/
def closeScan : List Char → Bool
  | [] => false
  | c :: cs => (matchLit ['*', '/'] (c :: cs)).isSome || (!(c = '\n') && closeScan cs)

/-- Occurrence of the `/\*.*\*/` comment pair anywhere in `s`. -/
def commentPairScan : List Char → Bool
  | [] => false
  | c :: cs =>
    (match matchLit ['/', '*'] (c :: cs) with
     | some rest => closeScan rest
     | none => false) || commentPairScan cs

/-- Regex `union\s+(all\s+)?select` (pattern 5 of `SQL_INJECTION_PATTERNS`). -/
def unionSelectHere (s : List Char) : Bool :=
  match matchLit "union".data s with
  | none => false
  | some rest =>
    match rest with
    | [] => false
    | c :: cs =>
      c.isWhitespace && afterSpacesP (fun t =>
        (matchLit "select".data t).isSome ||
        (match matchLit "all".data t with
         | some (d :: ds) =>
             d.isWhitespace && afterSpacesP (fun u => (matchLit "select".data u).isSome) ds
         | _ => false)) cs

def unionSelectScan : List Char → Bool
  | [] => false
  | c :: cs => unionSelectHere (c :: cs) || unionSelectScan cs

/-- The ten members of `SQL_INJECTION_PATTERNS`, in source order, applied to
the lowercased, trimmed input. -/
def sqlInjectionPatternHit (s : List Char) : Bool :=
  -- 1: \b(SELECT|INSERT|UPDATE|DELETE|DROP|CREATE|ALTER|EXEC|EXECUTE|UNION|SCRIPT)\b
  (["select", "insert", "update", "delete", "drop", "create", "alter",
    "exec", "execute", "union", "script"].any fun kw => wordOccur kw.data s) ||
  -- 2: ('|"|;|--|/\*|\*/)
  (["\x27", "\"", ";", "--", "/*", "*/"].any fun p => containsSub p.data s) ||
  -- 3: (<script|<iframe|<object|<embed|javascript:|vbscript:|onload=|onerror=)
  (["<script", "<iframe", "<object", "<embed", "javascript:", "vbscript:",
    "onload=", "onerror="].any fun p => containsSub p.data s) ||
  -- 4: (OR\s+1=1|AND\s+1=1|OR\s+'1'='1'|AND\s+'1'='1')
  spacedOccur "or".data "1=1".data s ||
  spacedOccur "and".data "1=1".data s ||
  spacedOccur "or".data "\x271\x27=\x271\x27".data s ||
  spacedOccur "and".data "\x271\x27=\x271\x27".data s ||
  -- 5: (UNION\s+(ALL\s+)?SELECT)
  unionSelectScan s ||
  -- 6: (/\*.*\*/|--.*|#.*)
  commentPairScan s || containsSub "--".data s || containsSub "#".data s ||
  -- 7: (SLEEP\(|WAITFOR\s+DELAY|BENCHMARK\()
  containsSub "sleep(".data s || spacedOccur "waitfor".data "delay".data s ||
  containsSub "benchmark(".data s ||
  -- 8: (INFORMATION_SCHEMA|SYSOBJECTS|SYSTABLES)
  containsSub "information_schema".data s || containsSub "sysobjects".data s ||
  containsSub "systables".data s ||
  -- 9: (CONCAT\(|CHAR\(|ASCII\(|SUBSTRING\()
  containsSub "concat(".data s || containsSub "char(".data s ||
  containsSub "ascii(".data s || containsSub "substring(".data s ||
  -- 10: (%27|%22|%3B|%2D%2D)
  containsSub "%27".data s || containsSub "%22".data s ||
  containsSub "%3b".data s || containsSub "%2d%2d".data s

/-- The five members of `ADVANCED_PATTERNS`, in source order. -/
def advancedPatternHit (s : List Char) : Bool :=
  -- 1: (%3C%73%63%72%69%70%74|%3Cscript)
  containsSub "%3c%73%63%72%69%70%74".data s || containsSub "%3cscript".data s ||
  -- 2: (\$where|\$ne|\$gt|\$lt|\$regex)
  (["$where", "$ne", "$gt", "$lt", "$regex"].any fun p => containsSub p.data s) ||
  -- 3: (;|\||&&|ls\s|cat\s|pwd|whoami|id\s)  (case-sensitive in source, but the
  --    input has already been lowercased before testing)
  containsSub ";".data s || containsSub "|".data s || containsSub "&&".data s ||
  litThenSpace "ls".data s || litThenSpace "cat".data s ||
  containsSub "pwd".data s || containsSub "whoami".data s ||
  litThenSpace "id".data s ||
  -- 4: (\.\./|\.\.\\|%2e%2e%2f)
  containsSub "../".data s || containsSub "..\\".data s ||
  containsSub "%2e%2e%2f".data s ||
  -- 5: (\*\)\(|\)\(|\*\()
  containsSub "*)(".data s || containsSub ")(".data s || containsSub "*(".data s

/-- JS `input.toLowerCase().trim()`. -/
def normalizeInput (s : String) : List Char :=
  (((s.data.map Char.toLower).dropWhile Char.isWhitespace).reverse.dropWhile
    Char.isWhitespace).reverse

/-- `detectSQLInjection` (`src/api/server.js` lines 116-138): empty input is
falsy and returns `false`; otherwise any single pattern match classifies the
input as malicious. -/
def detectSQLInjection (s : String) : Bool :=
  if s = "" then false
  else
    sqlInjectionPatternHit (normalizeInput s) || advancedPatternHit (normalizeInput s)

/-! ### Record store adapter and key-progress endpoints (`src/api/server.js`)

The remote store is a sheet whose data rows (header excluded) are modeled as
a `List Row`; a record locator is the 0-based index into that list (the
source uses the 1-based sheet row `i + 1` including the header row; the
offset is pure bookkeeping).  JS falsy-string defaults (`x || d`) are
embedded as `jsOr`. -/

/-- JS string truthiness default: `a || b` for strings. -/
def jsOr (a b : String) : String := if a = "" then b else a

/-- JS `v || d` where `v` may be an absent (undefined) object property. -/
def jsOrOpt (v : Option String) (d : String) : String :=
  match v with
  | none => d
  | some s => jsOr s d

/-- JS `String.prototype.toLowerCase` (ASCII-faithful). -/
def lowerStr (s : String) : String := ⟨s.data.map Char.toLower⟩

/-- One data row of the sheet, columns A-I (`A:I` range of `findUserByEmail`):
first name, last name, email, check-in, register key, project showcase key,
afternoon session key, redeem key, code.  Absent cells are empty strings. -/
structure Row where
  firstName : String
  lastName : String
  email : String
  checkin : String
  registerKey : String
  projectShowcaseKey : String
  afternoonSessionKey : String
  redeemKey : String
  code : String
deriving DecidableEq, Repr

/-- The sheet's data rows, in order. -/
abbrev Sheet := List Row

/-- The user object `findUserByEmail` builds from a matching row
(`src/api/server.js` lines 405-416): every cell defaulted with `|| ''`
except the redeem key, defaulted with `|| 'FALSE'`. -/
structure UserRec where
  rowIndex : Nat
  firstName : String
  lastName : String
  email : String
  checkin : String
  registerKey : String
  projectShowcaseKey : String
  afternoonSessionKey : String
  redeemKey : String
  code : String
deriving DecidableEq, Repr

def rowToUserRec (p : Nat) (r : Row) : UserRec :=
  { rowIndex := p
    firstName := r.firstName
    lastName := r.lastName
    email := r.email
    checkin := r.checkin
    registerKey := r.registerKey
    projectShowcaseKey := r.projectShowcaseKey
    afternoonSessionKey := r.afternoonSessionKey
    redeemKey := jsOr r.redeemKey "FALSE"
    code := r.code }

/-- Scan from position `p`: first row whose email cell is non-empty (truthy)
and matches the query case-insensitively (`row[2] && row[2].toLowerCase()
=== email.toLowerCase()`). -/
def findFrom (email : String) : Nat → Sheet → Option UserRec
  | _, [] => none
  | p, r :: rest =>
    if r.email ≠ "" ∧ lowerStr r.email = lowerStr email then some (rowToUserRec p r)
    else findFrom email (p + 1) rest

/-- `findUserByEmail` (`src/api/server.js` lines 383-426): full scan,
first case-insensitive match, `none` when absent. -/
def findUserByEmail (sheet : Sheet) (email : String) : Option UserRec :=
  findFrom email 0 sheet

/-- The `fields` object passed to `updateUserRecord`; absent properties are
`none`. -/
structure UpdateFields where
  firstname : Option String
  lastname : Option String
  email : Option String
  checkin : Option String
  registerKey : Option String
  projectShowcaseKey : Option String
  afternoonSessionKey : Option String
  redeemKey : Option String
  code : Option String
deriving DecidableEq, Repr

/-- An update request with every property absent. -/
def emptyFields : UpdateFields :=
  { firstname := none, lastname := none, email := none, checkin := none
    registerKey := none, projectShowcaseKey := none, afternoonSessionKey := none
    redeemKey := none, code := none }

/-- The row of values `updateUserRecord` writes (`src/api/server.js` line
492): `[fields.firstname || '', fields.lastname || '', fields.email || '',
fields.checkin || '', fields.registerKey || '', fields.projectShowcaseKey
|| '', fields.afternoonSessionKey || '', fields.redeemKey || 'FALSE',
fields.code || '']`. -/
def updateRowFromFields (f : UpdateFields) : Row :=
  { firstName := jsOrOpt f.firstname ""
    lastName := jsOrOpt f.lastname ""
    email := jsOrOpt f.email ""
    checkin := jsOrOpt f.checkin ""
    registerKey := jsOrOpt f.registerKey ""
    projectShowcaseKey := jsOrOpt f.projectShowcaseKey ""
    afternoonSessionKey := jsOrOpt f.afternoonSessionKey ""
    redeemKey := jsOrOpt f.redeemKey "FALSE"
    code := jsOrOpt f.code "" }

/-- `updateUserRecord` (`src/api/server.js` lines 477-508): overwrite the
whole row at `rowIndex` with the values built from `fields`. -/
def updateUserRecord (sheet : Sheet) (rowIndex : Nat) (f : UpdateFields) : Sheet :=
  updateAt sheet rowIndex (fun _ => updateRowFromFields f)

/-- Response of `POST /api/harty/submit`. -/
inductive SubmitResp
  | disabled
  | badRequest
  | conflict409
  | notRegistered403
  | okExisting (recordId : Nat) (didUpdate : Bool)
deriving DecidableEq, Repr

/-- `POST /api/harty/submit` (`src/api/server.js` lines 511-611): mission
gate, field presence check, find by email; on a found record, the lastname
conflict check (`existingLastname && existingLastname.toLowerCase() !==
fields.lastname.toLowerCase()`), then auto-check-in when the check-in cell
is not `'checked-in'`; unknown users get 403 (self-registration disabled). -/
def submitHarty (mission : String) (sheet : Sheet) (email lastname : String) :
    SubmitResp × Sheet :=
  if mission ≠ "ENABLE" then (.disabled, sheet)
  else if email = "" ∨ lastname = "" then (.badRequest, sheet)
  else
    match findUserByEmail sheet email with
    | some u =>
      if u.lastName ≠ "" ∧ lowerStr u.lastName ≠ lowerStr lastname then
        (.conflict409, sheet)
      else
        if u.checkin = "" ∨ u.checkin ≠ "checked-in" then
          let uf : UpdateFields :=
            { firstname := some u.firstName
              lastname := some u.lastName
              email := some u.email
              checkin := some "checked-in"
              registerKey := some (jsOr u.registerKey "")
              projectShowcaseKey := some (jsOr u.projectShowcaseKey "")
              afternoonSessionKey := some (jsOr u.afternoonSessionKey "")
              redeemKey := some (jsOr u.redeemKey "FALSE")
              code := some (jsOr u.code "") }
          (.okExisting u.rowIndex true, updateUserRecord sheet u.rowIndex uf)
        else (.okExisting u.rowIndex false, sheet)
    | none => (.notRegistered403, sheet)

/-- Response of `POST /api/harty/update`. -/
inductive UpdResp
  | disabled
  | badRequest
  | ok (recordId : Nat)
deriving DecidableEq, Repr

/-- `POST /api/harty/update` (`src/api/server.js` lines 614-670): mission
gate, presence check, then a whole-row `updateUserRecord`. -/
def updateEndpoint (mission : String) (sheet : Sheet) (recordId : Option Nat)
    (fields : Option UpdateFields) : UpdResp × Sheet :=
  if mission ≠ "ENABLE" then (.disabled, sheet)
  else
    match recordId, fields with
    | some idx, some f => (.ok idx, updateUserRecord sheet idx f)
    | _, _ => (.badRequest, sheet)

/-- Write one key cell: the column map of the `switch (keyField)` in
`POST /api/harty/update-key` (E, F, G, D). -/
def setKeyCell (keyField status : String) (r : Row) : Row :=
  match keyField with
  | "key1 status" => { r with registerKey := status }
  | "key2 status" => { r with projectShowcaseKey := status }
  | "key3 status" => { r with afternoonSessionKey := status }
  | "key4 status" => { r with checkin := status }
  | _ => r

def validKeyField (keyField : String) : Bool :=
  keyField = "key1 status" || keyField = "key2 status" ||
  keyField = "key3 status" || keyField = "key4 status"

/-- `getUserEmailByRowIndex` (`src/api/server.js` lines 673-689): read the
email cell; an empty cell yields no values, hence `null`. -/
def getUserEmailByRowIndex (sheet : Sheet) (rowIndex : Nat) : Option String :=
  match sheet[rowIndex]? with
  | some r => if r.email = "" then none else some r.email
  | none => none

/-- `checkAndUpdateRedeemKey` (`src/api/server.js` lines 692-715): when keys
1-3 are all `scanned` and the redeem key is not already `TRUE`, write `TRUE`
to the redeem column of that row; returns whether a write happened. -/
def checkAndUpdateRedeemKey (sheet : Sheet) (u : UserRec) : Sheet × Bool :=
  if u.registerKey = "scanned" ∧ u.projectShowcaseKey = "scanned" ∧
     u.afternoonSessionKey = "scanned" ∧ u.redeemKey ≠ "TRUE" then
    (updateAt sheet u.rowIndex (fun r => { r with redeemKey := "TRUE" }), true)
  else (sheet, false)

/-- Response of `POST /api/harty/update-key`. -/
inductive KeyResp
  | disabled
  | badRequest
  | invalidKeyField
  | ok
deriving DecidableEq, Repr

/-- `POST /api/harty/update-key` (`src/api/server.js` lines 718-825): mission
gate, presence check, column lookup, single-cell write, then the eager
redeem-flag trigger when a key-1..3 cell was set to `scanned` (errors in the
trigger are caught and do not fail the main operation). -/
def updateKeyEndpoint (mission : String) (sheet : Sheet) (recordId : Option Nat)
    (keyField status : String) : KeyResp × Sheet :=
  if mission ≠ "ENABLE" then (.disabled, sheet)
  else
    match recordId with
    | none => (.badRequest, sheet)
    | some idx =>
      if keyField = "" ∨ status = "" then (.badRequest, sheet)
      else if ¬ validKeyField keyField then (.invalidKeyField, sheet)
      else
        let sheet1 := updateAt sheet idx (setKeyCell keyField status)
        if status = "scanned" ∧
           (keyField = "key1 status" ∨ keyField = "key2 status" ∨
            keyField = "key3 status") then
          match getUserEmailByRowIndex sheet1 idx with
          | some em =>
            match findUserByEmail sheet1 em with
            | some u => (.ok, (checkAndUpdateRedeemKey sheet1 u).1)
            | none => (.ok, sheet1)
          | none => (.ok, sheet1)
        else (.ok, sheet1)

/-- Data object returned by `GET /api/harty/user/:email`. -/
structure GetData where
  recordId : Nat
  email : String
  lastName : String
  key1 : String
  key2 : String
  key3 : String
  key4 : String
  redeemKeyEnabled : Bool
deriving DecidableEq, Repr

/-- Response of `GET /api/harty/user/:email`. -/
inductive GetResp
  | badRequest
  | notFound404
  | ok (d : GetData)
deriving DecidableEq, Repr

/-- `GET /api/harty/user/:email` (`src/api/server.js` lines 885-973): find
the record, derive the four key statuses, and when keys 1-3 are all scanned
but the stored redeem key is not `TRUE`, lazily write `TRUE` and report the
flag as enabled (the self-healing trigger).  This endpoint performs no
mission-toggle check.  The embedding models the successful write; a failed
lazy write is the caught-exception path that falls back to the stored
value. -/
def getUserEndpoint (sheet : Sheet) (email : String) : GetResp × Sheet :=
  if email = "" then (.badRequest, sheet)
  else
    match findUserByEmail sheet email with
    | none => (.notFound404, sheet)
    | some u =>
      let k1 := if u.registerKey = "scanned" then "scanned" else "not_scanned"
      let k2 := if u.projectShowcaseKey = "scanned" then "scanned" else "not_scanned"
      let k3 := if u.afternoonSessionKey = "scanned" then "scanned" else "not_scanned"
      let k4 := if u.checkin = "scanned" then "scanned" else "not_scanned"
      let stored := u.redeemKey = "TRUE"
      if ¬ stored ∧ k1 = "scanned" ∧ k2 = "scanned" ∧ k3 = "scanned" then
        (.ok { recordId := u.rowIndex, email := u.email, lastName := u.lastName
               key1 := k1, key2 := k2, key3 := k3, key4 := k4
               redeemKeyEnabled := true },
         updateAt sheet u.rowIndex (fun r => { r with redeemKey := "TRUE" }))
      else
        (.ok { recordId := u.rowIndex, email := u.email, lastName := u.lastName
               key1 := k1, key2 := k2, key3 := k3, key4 := k4
               redeemKeyEnabled := stored },
         sheet)

/-- Response of `POST /api/harty/save-redeem-code`. -/
inductive CodeResp
  | disabled
  | badRequest
  | notFound404
  | ok
deriving DecidableEq, Repr

/-- `POST /api/harty/save-redeem-code` (`src/api/server.js` lines 828-882):
mission gate, presence check, find by email, write the code column. -/
def saveRedeemCode (mission : String) (sheet : Sheet) (email redeemCode : String) :
    CodeResp × Sheet :=
  if mission ≠ "ENABLE" then (.disabled, sheet)
  else if email = "" ∨ redeemCode = "" then (.badRequest, sheet)
  else
    match findUserByEmail sheet email with
    | none => (.notFound404, sheet)
    | some u => (.ok, updateAt sheet u.rowIndex (fun r => { r with code := redeemCode }))

/-- One inbound request against the harty endpoints. -/
inductive Request
  | submit (email lastname : String)
  | update (recordId : Option Nat) (fields : Option UpdateFields)
  | updateKey (recordId : Option Nat) (keyField status : String)
  | saveCode (email code : String)
  | getUser (email : String)

/-- Response summary across the endpoints. -/
inductive Resp
  | submitR (r : SubmitResp)
  | updateR (r : UpdResp)
  | keyR (r : KeyResp)
  | codeR (r : CodeResp)
  | getR (r : GetResp)
deriving DecidableEq, Repr

/-- Whether a response is the `{success:false}` feature-toggle short-circuit. -/
def respDisabled : Resp → Bool
  | .submitR .disabled => true
  | .updateR .disabled => true
  | .keyR .disabled => true
  | .codeR .disabled => true
  | _ => false

/-- Dispatch one request against the server state.  Note that `getUser`
(the read endpoint) never consults the mission toggle, exactly as in the
source. -/
def handle (mission : String) (sheet : Sheet) : Request → Resp × Sheet
  | .submit email lastname =>
    let (r, s) := submitHarty mission sheet email lastname
    (.submitR r, s)
  | .update recordId fields =>
    let (r, s) := updateEndpoint mission sheet recordId fields
    (.updateR r, s)
  | .updateKey recordId keyField status =>
    let (r, s) := updateKeyEndpoint mission sheet recordId keyField status
    (.keyR r, s)
  | .saveCode email code =>
    let (r, s) := saveRedeemCode mission sheet email code
    (.codeR r, s)
  | .getUser email =>
    let (r, s) := getUserEndpoint sheet email
    (.getR r, s)

/-! ### Airtable submit handler (`src/unnamed/part_004` lines 105-265)

The remote Airtable table is a `List ARec` with server-assigned record ids.
The handler lowercases the submitted email (line 125) and searches with
`filterByFormula: {email} = "..."`; Airtable formula string comparison is
case-insensitive, so the remote match is modeled case-insensitively (this is
the record store's documented identity semantics, spec section 3). -/

structure ARec where
  id : Nat
  email : String
  lastname : String
  key1 : String
  key2 : String
  key3 : String
deriving DecidableEq, Repr

abbrev AStore := List ARec

/-- The `select({filterByFormula, maxRecords: 1})` search: first record whose
email matches case-insensitively. -/
def findA (store : AStore) (email : String) : Option ARec :=
  store.find? fun r => lowerStr r.email = lowerStr email

/-- Response of `POST /api/airtable/submit` (part_004). -/
inductive AResp
  | conflict409
  | okExisting (recordId : Nat)
  | created (recordId : Nat)
deriving DecidableEq, Repr

/-- Body of `POST /api/airtable/submit` (part_004, lines 129-218; the part
executed under `withEmailLock`, after the config and field-presence gates):
search by the lowercased email; on a match, the lastname conflict check
(`existingLastname && existingLastname.toLowerCase() !==
lastname.toLowerCase()`) or the welcome-back response; otherwise create a
record with the three key statuses `not_scanned`.  `nextId` is the id the
remote store will assign. -/
def airtableSubmit (store : AStore) (nextId : Nat) (email lastname : String) :
    AResp × AStore :=
  match findA store (lowerStr email) with
  | some rec =>
    if rec.lastname ≠ "" ∧ lowerStr rec.lastname ≠ lowerStr lastname then
      (.conflict409, store)
    else
      (.okExisting rec.id, store)
  | none =>
    (.created nextId,
     store ++ [{ id := nextId, email := email, lastname := lastname
                 key1 := "not_scanned", key2 := "not_scanned", key3 := "not_scanned" }])

/-! ### Resilience layer: the two `withRetry` variants

An operation is modeled as a function from the attempt number (1-based) to
an outcome; the wrappers are loops over at most `maxRetries` attempts.  The
accumulated wait time (milliseconds spent in `setTimeout`) is carried so the
wall-clock budget of the rate-limit path is checkable. -/

/-- Outcome of one invocation of the wrapped operation. -/
inductive Outcome (α : Type)
  | ok (a : α)
  | rateLimited
  | otherError (e : Nat)
deriving DecidableEq, Repr

/-- Result of a `withRetry` run: success, a thrown rate-limit error, a thrown
other error (each recording the number of attempts made and the total wait),
or the JS `undefined` fall-through when `maxRetries = 0`. -/
inductive RetryResult (α : Type)
  | ok (a : α) (attempts : Nat) (waited : Nat)
  | thrownRateLimit (attempts : Nat) (waited : Nat)
  | thrown (e : Nat) (attempts : Nat) (waited : Nat)
  | undef
deriving DecidableEq, Repr

/-- Loop body of the `withRetry` in `src/server.js` lines 211-233 and
`src/api/server.js` lines 358-380: rate-limit errors are retried with
exponential backoff `baseDelay * 2^(attempt-1)` and rethrown on the last
attempt; any other error is rethrown immediately. -/
def retrySheetsGo {α : Type} (op : Nat → Outcome α) (baseDelay : Nat) :
    Nat → Nat → Nat → RetryResult α
  | _, _, 0 => .undef
  | attempt, waited, remaining + 1 =>
    match op attempt with
    | .ok a => .ok a attempt waited
    | .rateLimited =>
      if remaining = 0 then .thrownRateLimit attempt waited
      else retrySheetsGo op baseDelay (attempt + 1)
        (waited + baseDelay * 2 ^ (attempt - 1)) remaining
    | .otherError e => .thrown e attempt waited

/-- `withRetry` of `src/server.js` / `src/api/server.js` (defaults
`maxRetries = 3`, `baseDelay = 1000`). -/
def withRetrySheets {α : Type} (op : Nat → Outcome α) (maxRetries baseDelay : Nat) :
    RetryResult α :=
  retrySheetsGo op baseDelay 1 0 maxRetries

/-- Loop body of the `withRetry` in `src/unnamed/part_004` lines 21-51:
rate-limit errors wait a fixed 30000 ms and are replaced by a fresh
`Rate limit exceeded after maximum retries` error on the last attempt; any
other error is retried with exponential backoff and rethrown only on the
last attempt. -/
def retryAirtableGo {α : Type} (op : Nat → Outcome α) (baseDelay : Nat) :
    Nat → Nat → Nat → RetryResult α
  | _, _, 0 => .undef
  | attempt, waited, remaining + 1 =>
    match op attempt with
    | .ok a => .ok a attempt waited
    | .rateLimited =>
      if remaining = 0 then .thrownRateLimit attempt waited
      else retryAirtableGo op baseDelay (attempt + 1) (waited + 30000) remaining
    | .otherError e =>
      if remaining = 0 then .thrown e attempt waited
      else retryAirtableGo op baseDelay (attempt + 1)
        (waited + baseDelay * 2 ^ (attempt - 1)) remaining

/-- `withRetry` of `src/unnamed/part_004` (defaults `maxRetries = 3`,
`baseDelay = 1000`). -/
def withRetryAirtable {α : Type} (op : Nat → Outcome α) (maxRetries baseDelay : Nat) :
    RetryResult α :=
  retryAirtableGo op baseDelay 1 0 maxRetries

/-! ### Game session manager (`src/api/server.js` lines 202-355,
identical in `src/server.js` lines 55-208) -/

/-- One entry of a session's interaction log (server-stamped timestamps are
not part of the embedded state). -/
inductive Interaction
  | keyCollected (keyName targetType method : String)
  | gameCompleted
  | generic (type : String)
deriving DecidableEq, Repr

structure Session where
  collectedKeys : List String
  targetsFound : List String
  interactions : List Interaction
  requiredKeys : List String
  isCompleted : Bool
deriving DecidableEq, Repr

/-- `POST /api/session/create`: the fresh session stored under a new id. -/
def newSession : Session :=
  { collectedKeys := []
    targetsFound := []
    interactions := []
    requiredKeys := ["Engineering Access Key", "Science Lab Key"]
    isCompleted := false }

/-- JS `Array.prototype.includes` on strings. -/
def includesStr (l : List String) (a : String) : Bool :=
  match l with
  | [] => false
  | x :: xs => x = a || includesStr xs a

theorem includesStr_eq_true_iff (l : List String) (a : String) :
    includesStr l a = true ↔ a ∈ l := by
  induction l with
  | nil => simp [includesStr]
  | cons x xs ih =>
    simp only [includesStr, Bool.or_eq_true, decide_eq_true_eq, ih, List.mem_cons]
    constructor
    · rintro (h | h)
      · exact Or.inl h.symm
      · exact Or.inr h
    · rintro (h | h)
      · exact Or.inl h.symm
      · exact Or.inr h

/-- Response of `POST /api/session/:sessionId/collect-key`. -/
inductive CollectResp
  | notFound404
  | invalidKey400
  | alreadyCollected400
  | ok (totalCollected totalRequired : Nat) (isCompleted : Bool)
deriving DecidableEq, Repr

/-- `POST /api/session/:sessionId/collect-key` (`src/api/server.js` lines
244-311): 404 for an unknown session, 400 for a key outside `requiredKeys`,
400 when already collected; otherwise append the key, track the target,
log the interaction and recompute completion. -/
def collectKey (sess : Option Session) (keyName targetType method : String) :
    CollectResp × Option Session :=
  match sess with
  | none => (.notFound404, none)
  | some s =>
    if includesStr s.requiredKeys keyName = false then (.invalidKey400, some s)
    else if includesStr s.collectedKeys keyName = true then (.alreadyCollected400, some s)
    else
      let ck := s.collectedKeys ++ [keyName]
      let tf := if includesStr s.targetsFound targetType then s.targetsFound
                else s.targetsFound ++ [targetType]
      let inter := s.interactions ++ [.keyCollected keyName targetType method]
      let completed := s.requiredKeys.all fun k => includesStr ck k
      let s' : Session :=
        if completed && !s.isCompleted then
          { s with collectedKeys := ck, targetsFound := tf
                   interactions := inter ++ [.gameCompleted], isCompleted := true }
        else
          { s with collectedKeys := ck, targetsFound := tf, interactions := inter }
      (.ok ck.length s.requiredKeys.length completed, some s')

/-- `POST /api/session/:sessionId/interaction`: append one log entry. -/
def recordInteraction (s : Session) (type : String) : Session :=
  { s with interactions := s.interactions ++ [.generic type] }

/-- States a single session can reach from creation through its own
endpoints (collect-key successes or failures, and interaction records). -/
inductive SessionReach : Session → Prop
  | init : SessionReach newSession
  | collect (s : Session) (keyName targetType method : String) (r : CollectResp)
      (s' : Session) (h : SessionReach s)
      (hc : collectKey (some s) keyName targetType method = (r, some s')) :
      SessionReach s'
  | interact (s : Session) (type : String) (h : SessionReach s) :
      SessionReach (recordInteraction s type)

/-! ### Identity lock (`src/unnamed/part_004` lines 54-73)

`withEmailLock` serializes the find-then-create sequence of the submit
handler per normalized email.  `CStep` is a small-step interleaving model of
any number of concurrent submits for one fixed email: each process acquires
the lock (the busy-wait loop re-checks `emailLocks.has` and the check-then-
set runs atomically inside one event-loop turn), then performs the remote
search, then — only when the search found nothing — the remote create, then
releases the lock (in a `finally`, so unconditionally).  `creates` counts
the create calls that reached the store; `recordExists` is whether the store
holds a record for the email. -/

inductive PC
  | start
  | locked
  | createPending
  | finishing
  | done
deriving DecidableEq, Repr

def activePC : PC → Bool
  | .start => false
  | .done => false
  | _ => true

structure CSys where
  recordExists : Bool
  lockHeld : Bool
  procs : List PC
  creates : Nat
deriving DecidableEq, Repr

/-- Initial state: `n` concurrent submits for the same email; `b0` is whether
the store already holds a record for that email. -/
def initSys (n : Nat) (b0 : Bool) : CSys :=
  { recordExists := b0, lockHeld := false, procs := List.replicate n .start, creates := 0 }

/-- Interleaving steps of the submit processes. -/
inductive CStep : CSys → CSys → Prop
  | acquire (s : CSys) (i : Nat) (hp : s.procs[i]? = some .start)
      (hl : s.lockHeld = false) :
      CStep s { s with lockHeld := true, procs := updateAt s.procs i fun _ => .locked }
  | find (s : CSys) (i : Nat) (hp : s.procs[i]? = some .locked) :
      CStep s { s with procs := updateAt s.procs i fun _ =>
        if s.recordExists then .finishing else .createPending }
  | create (s : CSys) (i : Nat) (hp : s.procs[i]? = some .createPending) :
      CStep s { s with recordExists := true, creates := s.creates + 1,
                       procs := updateAt s.procs i fun _ => .finishing }
  | release (s : CSys) (i : Nat) (hp : s.procs[i]? = some .finishing) :
      CStep s { s with lockHeld := false, procs := updateAt s.procs i fun _ => .done }

/-- Reachability from the initial state. -/
def ReachableC (n : Nat) (b0 : Bool) (s : CSys) : Prop :=
  Relation.ReflTransGen CStep (initSys n b0) s

/-! ### Invariants of the lock model -/

theorem updateAt_some {α : Type} {l : List α} {j : Nat} {f : α → α} {i : Nat}
    {x old : α} (hj : l[j]? = some old) (h : (updateAt l j f)[i]? = some x) :
    (i = j ∧ x = f old) ∨ (i ≠ j ∧ l[i]? = some x) := by
  rw [updateAt_getElem?] at h
  by_cases hij : i = j
  · subst hij
    rw [if_pos rfl, hj] at h
    have h2 : some (f old) = some x := h
    exact Or.inl ⟨rfl, (Option.some.inj h2).symm⟩
  · rw [if_neg hij] at h
    exact Or.inr ⟨hij, h⟩

theorem replicate_some {α : Type} {n i : Nat} {a x : α}
    (h : (List.replicate n a)[i]? = some x) : x = a := by
  induction n generalizing i with
  | zero => simp [List.replicate] at h
  | succ n ih =>
    cases i with
    | zero =>
      simp only [List.replicate, List.getElem?_cons_zero, Option.some.injEq] at h
      exact h.symm
    | succ i =>
      simp only [List.replicate, List.getElem?_cons_succ] at h
      exact ih h

/-- The inductive invariant of the lock model, for a fixed email whose record
initially `b0`-exists: at most one create ever reaches the store, no create
happens while the record is absent-and-uncreated, mutual exclusion holds,
and a process about to create has observed the record absent. -/
structure InvC (b0 : Bool) (s : CSys) : Prop where
  createsLe : s.creates ≤ 1
  noRecNoCreate : s.recordExists = false → s.creates = 0
  initRec : b0 = true → s.recordExists = true
  initNoCreate : b0 = true → s.creates = 0
  uniqueActive : ∀ (i j : Nat) (pi pj : PC), s.procs[i]? = some pi →
    s.procs[j]? = some pj → activePC pi = true → activePC pj = true → i = j
  lockFree : s.lockHeld = false → ∀ (i : Nat) (pi : PC),
    s.procs[i]? = some pi → activePC pi = false
  pendingNoRec : ∀ (i : Nat), s.procs[i]? = some .createPending →
    s.recordExists = false

theorem invC_init (n : Nat) (b0 : Bool) : InvC b0 (initSys n b0) := by
  refine ⟨Nat.zero_le 1, fun _ => rfl, fun h => h, fun _ => rfl, ?_, ?_, ?_⟩
  · intro i j pi pj hi hj hai _
    have := replicate_some hi
    subst this
    simp [activePC] at hai
  · intro _ i pi hi
    have := replicate_some hi
    subst this
    rfl
  · intro i hi
    have := replicate_some hi
    simp at this

theorem invC_step {b0 : Bool} {s s' : CSys} (inv : InvC b0 s) (hstep : CStep s s') :
    InvC b0 s' := by
  cases hstep with
  | acquire i hp hl =>
    refine ⟨inv.createsLe, inv.noRecNoCreate, inv.initRec, inv.initNoCreate, ?_, ?_, ?_⟩
    · intro k l pk pl hk hl2 hak hal
      rcases updateAt_some hp hk with ⟨hki, _⟩ | ⟨_, hko⟩
      · rcases updateAt_some hp hl2 with ⟨hli, _⟩ | ⟨_, hlo⟩
        · rw [hki, hli]
        · exact absurd (inv.lockFree hl _ _ hlo) (by simp [hal])
      · exact absurd (inv.lockFree hl _ _ hko) (by simp [hak])
    · intro hfalse
      simp at hfalse
    · intro k hk
      rcases updateAt_some hp hk with ⟨_, heq⟩ | ⟨_, hko⟩
      · exact absurd heq (by simp)
      · exact absurd (inv.lockFree hl _ _ hko) (by simp [activePC])
  | find i hp =>
    refine ⟨inv.createsLe, inv.noRecNoCreate, inv.initRec, inv.initNoCreate, ?_, ?_, ?_⟩
    · intro k l pk pl hk hl2 hak hal
      rcases updateAt_some hp hk with ⟨hki, _⟩ | ⟨hkne, hko⟩
      · rcases updateAt_some hp hl2 with ⟨hli, _⟩ | ⟨hlne, hlo⟩
        · rw [hki, hli]
        · exact absurd (inv.uniqueActive i l _ _ hp hlo rfl hal).symm hlne
      · rcases updateAt_some hp hl2 with ⟨hli, _⟩ | ⟨_, hlo⟩
        · exact absurd (inv.uniqueActive i k _ _ hp hko rfl hak).symm hkne
        · exact inv.uniqueActive k l _ _ hko hlo hak hal
    · intro hfalse
      exact absurd (inv.lockFree hfalse i _ hp) (by simp [activePC])
    · intro k hk
      rcases updateAt_some hp hk with ⟨_, heq⟩ | ⟨_, hko⟩
      · cases hre : s.recordExists
        · rfl
        · rw [hre] at heq
          exact absurd heq (by simp)
      · exact inv.pendingNoRec k hko
  | create i hp =>
    have hrec : s.recordExists = false := inv.pendingNoRec i hp
    have hc0 : s.creates = 0 := inv.noRecNoCreate hrec
    refine ⟨?_, ?_, fun _ => rfl, ?_, ?_, ?_, ?_⟩
    · show s.creates + 1 ≤ 1
      omega
    · intro hfalse
      simp at hfalse
    · intro hb0
      rw [inv.initRec hb0] at hrec
      exact absurd hrec (by simp)
    · intro k l pk pl hk hl2 hak hal
      rcases updateAt_some hp hk with ⟨hki, _⟩ | ⟨hkne, hko⟩
      · rcases updateAt_some hp hl2 with ⟨hli, _⟩ | ⟨hlne, hlo⟩
        · rw [hki, hli]
        · exact absurd (inv.uniqueActive i l _ _ hp hlo rfl hal).symm hlne
      · rcases updateAt_some hp hl2 with ⟨hli, _⟩ | ⟨_, hlo⟩
        · exact absurd (inv.uniqueActive i k _ _ hp hko rfl hak).symm hkne
        · exact inv.uniqueActive k l _ _ hko hlo hak hal
    · intro hfalse
      exact absurd (inv.lockFree hfalse i _ hp) (by simp [activePC])
    · intro k hk
      rcases updateAt_some hp hk with ⟨_, heq⟩ | ⟨hkne, hko⟩
      · exact absurd heq (by simp)
      · exact absurd (inv.uniqueActive k i _ _ hko hp rfl rfl) hkne
  | release i hp =>
    refine ⟨inv.createsLe, inv.noRecNoCreate, inv.initRec, inv.initNoCreate, ?_, ?_, ?_⟩
    · intro k l pk pl hk hl2 hak hal
      rcases updateAt_some hp hk with ⟨_, heq⟩ | ⟨hkne, hko⟩
      · rw [heq] at hak
        simp [activePC] at hak
      · rcases updateAt_some hp hl2 with ⟨_, heq⟩ | ⟨_, hlo⟩
        · rw [heq] at hal
          simp [activePC] at hal
        · exact inv.uniqueActive k l _ _ hko hlo hak hal
    · intro _ k pk hk
      rcases updateAt_some hp hk with ⟨_, heq⟩ | ⟨hkne, hko⟩
      · rw [heq]
        rfl
      · cases hac : activePC pk
        · rfl
        · exact absurd (inv.uniqueActive k i _ _ hko hp hac rfl) hkne
    · intro k hk
      rcases updateAt_some hp hk with ⟨_, heq⟩ | ⟨_, hko⟩
      · exact absurd heq (by simp)
      · exact inv.pendingNoRec k hko

theorem invC_reachable {n : Nat} {b0 : Bool} {s : CSys} (h : ReachableC n b0 s) :
    InvC b0 s := by
  induction h with
  | refl => exact invC_init n b0
  | tail _ hstep ih => exact invC_step ih hstep

/-! ### Characterization of `findUserByEmail` -/

theorem findFrom_spec {email : String} :
    ∀ (p : Nat) (l : Sheet) (u : UserRec), findFrom email p l = some u →
      ∃ j r, l[j]? = some r ∧ u.rowIndex = p + j ∧ u = rowToUserRec (p + j) r := by
  intro p l
  induction l generalizing p with
  | nil =>
    intro u h
    simp [findFrom] at h
  | cons r rest ih =>
    intro u h
    by_cases hc : r.email ≠ "" ∧ lowerStr r.email = lowerStr email
    · rw [findFrom, if_pos hc] at h
      refine ⟨0, r, by simp, ?_, ?_⟩
      · rw [← Option.some.inj h]
        rfl
      · rw [← Option.some.inj h]
        rfl
    · rw [findFrom, if_neg hc] at h
      obtain ⟨j, r', hj, hri, hu⟩ := ih (p + 1) u h
      have harith : p + 1 + j = p + (j + 1) := by omega
      rw [harith] at hri hu
      exact ⟨j + 1, r', by simpa using hj, hri, hu⟩

theorem findUserByEmail_spec {sheet : Sheet} {email : String} {u : UserRec}
    (h : findUserByEmail sheet email = some u) :
    ∃ r, sheet[u.rowIndex]? = some r ∧ u = rowToUserRec u.rowIndex r := by
  obtain ⟨j, r, hj, hri, hu⟩ := findFrom_spec 0 sheet u h
  simp only [Nat.zero_add] at hri hu
  rw [hri]
  exact ⟨r, hj, hu⟩

/-! ### Redeem-flag preservation helpers -/

/-- The row at index `i` (when present) has its redeem-key cell set to
`TRUE`. -/
def redeemTrueAt (sheet : Sheet) (i : Nat) : Prop :=
  ∀ r, sheet[i]? = some r → r.redeemKey = "TRUE"

theorem redeemTrueAt_updateAt {sheet : Sheet} {i j : Nat} {f : Row → Row}
    (hf : ∀ r, sheet[j]? = some r → r.redeemKey = "TRUE" → (f r).redeemKey = "TRUE")
    (h : redeemTrueAt sheet i) : redeemTrueAt (updateAt sheet j f) i := by
  intro r hr
  rw [updateAt_getElem?] at hr
  by_cases hij : i = j
  · subst hij
    cases hsj : sheet[i]? with
    | none =>
      rw [if_pos rfl, hsj] at hr
      simp at hr
    | some r0 =>
      rw [if_pos rfl, hsj] at hr
      have h2 : some (f r0) = some r := hr
      rw [← Option.some.inj h2]
      exact hf r0 hsj (h r0 hsj)
  · rw [if_neg hij] at hr
    exact h r hr

theorem setKeyCell_redeemKey (keyField status : String) (r : Row) :
    (setKeyCell keyField status r).redeemKey = r.redeemKey := by
  unfold setKeyCell
  split <;> rfl

/-! ### Session invariant -/

/-- Inductive invariant of one game session: no duplicate collected keys,
every collected key is required, and the required-key set is the one fixed
at creation. -/
def SessionInv (s : Session) : Prop :=
  s.collectedKeys.Nodup ∧ (∀ k ∈ s.collectedKeys, k ∈ s.requiredKeys) ∧
    s.requiredKeys = newSession.requiredKeys

theorem sessionInv_new : SessionInv newSession := by
  refine ⟨List.nodup_nil, ?_, rfl⟩
  intro k hk
  simp [newSession] at hk

theorem not_mem_of_includesStr_false {l : List String} {a : String}
    (h : includesStr l a = false) : a ∉ l := by
  intro hmem
  rw [(includesStr_eq_true_iff l a).mpr hmem] at h
  exact Bool.noConfusion h

theorem sessionInv_collect {s : Session} {k t m : String} {r : CollectResp}
    {s' : Session} (inv : SessionInv s)
    (hc : collectKey (some s) k t m = (r, some s')) : SessionInv s' := by
  cases h1 : includesStr s.requiredKeys k with
  | false =>
    simp [collectKey, h1] at hc
    obtain ⟨-, rfl⟩ := hc
    exact inv
  | true =>
    cases h2 : includesStr s.collectedKeys k with
    | true =>
      simp [collectKey, h1, h2] at hc
      obtain ⟨-, rfl⟩ := hc
      exact inv
    | false =>
      have hknot : k ∉ s.collectedKeys := not_mem_of_includesStr_false h2
      have hkreq : k ∈ s.requiredKeys := (includesStr_eq_true_iff _ _).mp h1
      simp [collectKey, h1, h2] at hc
      obtain ⟨-, rfl⟩ := hc
      have hnodup : (s.collectedKeys ++ [k]).Nodup :=
        ((List.perm_append_singleton k s.collectedKeys).nodup_iff).mpr
          (List.nodup_cons.mpr ⟨hknot, inv.1⟩)
      have hsub : ∀ x ∈ s.collectedKeys ++ [k], x ∈ s.requiredKeys := by
        intro x hx
        rw [List.mem_append, List.mem_singleton] at hx
        rcases hx with hx | hx
        · exact inv.2.1 x hx
        · exact hx ▸ hkreq
      split
      · exact ⟨hnodup, hsub, inv.2.2⟩
      · exact ⟨hnodup, hsub, inv.2.2⟩

theorem sessionInv_reach {s : Session} (h : SessionReach s) : SessionInv s := by
  induction h with
  | init => exact sessionInv_new
  | collect s k t m r s' _ hc ih => exact sessionInv_collect ih hc
  | interact s ty _ ih => exact ih

/-! ### Retry lemmas -/

theorem retryAirtableGo_allRL {α : Type} (op : Nat → Outcome α) (d : Nat)
    (h : ∀ i, op i = .rateLimited) :
    ∀ (remaining attempt waited : Nat), 1 ≤ remaining →
      retryAirtableGo op d attempt waited remaining =
        .thrownRateLimit (attempt + remaining - 1) (waited + (remaining - 1) * 30000) := by
  intro remaining
  induction remaining with
  | zero =>
    intro attempt waited hle
    exact absurd hle (by omega)
  | succ rem ih =>
    intro attempt waited _
    simp only [retryAirtableGo, h attempt]
    by_cases hrem : rem = 0
    · subst hrem
      rw [if_pos rfl]
      congr 1
    · rw [if_neg hrem, ih (attempt + 1) (waited + 30000) (by omega)]
      congr 1 <;> omega

theorem retrySheetsGo_allRL {α : Type} (op : Nat → Outcome α) (d : Nat)
    (h : ∀ i, op i = .rateLimited) :
    ∀ (remaining attempt waited : Nat), 1 ≤ remaining →
      ∃ w, retrySheetsGo op d attempt waited remaining =
        .thrownRateLimit (attempt + remaining - 1) w := by
  intro remaining
  induction remaining with
  | zero =>
    intro attempt waited hle
    exact absurd hle (by omega)
  | succ rem ih =>
    intro attempt waited _
    simp only [retrySheetsGo, h attempt]
    by_cases hrem : rem = 0
    · subst hrem
      exact ⟨waited, by rw [if_pos rfl]; congr 1⟩
    · obtain ⟨w, hw⟩ := ih (attempt + 1) (waited + d * 2 ^ (attempt - 1)) (by omega)
      refine ⟨w, ?_⟩
      rw [if_neg hrem, hw]
      congr 2
      omega

/-! ### Claim C6 -/

/-- C6: an operation that fails with a rate-limit signal on every attempt
makes `withRetry` terminate by throwing after exactly `maxRetries` attempts,
in both wrapper variants; the fixed-wait (Airtable) variant waits exactly
`(maxRetries - 1) * 30000` ms in total, within the `attempts x fixedWait`
budget.  It never returns success and never stops before the cap. -/
theorem c6_ratelimit_exhaustion (α : Type) (op : Nat → Outcome α)
    (h : ∀ i, op i = .rateLimited) (n d : Nat) (hn : 1 ≤ n) :
    withRetryAirtable op n d = .thrownRateLimit n ((n - 1) * 30000) ∧
    (n - 1) * 30000 ≤ n * 30000 ∧
    (∃ w, withRetrySheets op n d = .thrownRateLimit n w) := by
  refine ⟨?_, Nat.mul_le_mul_right 30000 (by omega), ?_⟩
  · rw [withRetryAirtable, retryAirtableGo_allRL op d h n 1 0 hn]
    congr 1 <;> omega
  · obtain ⟨w, hw⟩ := retrySheetsGo_allRL op d h n 1 0 hn
    refine ⟨w, ?_⟩
    rw [withRetrySheets, hw]
    congr 1
    omega

theorem c6_ratelimit_exhaustion_witness :
    withRetryAirtable (fun _ => (Outcome.rateLimited : Outcome Nat)) 3 1000 =
      .thrownRateLimit 3 ((3 - 1) * 30000) ∧
    (3 - 1) * 30000 ≤ 3 * 30000 ∧
    (∃ w, withRetrySheets (fun _ => (Outcome.rateLimited : Outcome Nat)) 3 1000 =
      .thrownRateLimit 3 w) :=
  c6_ratelimit_exhaustion Nat (fun _ => Outcome.rateLimited) (fun _ => rfl) 3 1000
    (by omega)

/-! ### Claim C5 -/

/-- C5 (amended): both wrappers invoke the operation (a first-attempt success
is returned from attempt 1 with no waiting) and retry rate-limit failures up
to the attempt cap; but the two variants treat other errors differently.
The `src/server.js` / `src/api/server.js` wrapper rethrows a non-rate-limit
error immediately on its first occurrence with no further attempts; the
`src/unnamed/part_004` wrapper instead retries non-rate-limit errors with
exponential backoff, rethrowing only at the attempt cap. -/
theorem c5_retry_policy :
    (∀ (α : Type) (op : Nat → Outcome α) (a : α) (n d : Nat), 1 ≤ n →
      op 1 = .ok a →
      withRetrySheets op n d = .ok a 1 0 ∧ withRetryAirtable op n d = .ok a 1 0) ∧
    (∀ (α : Type) (op : Nat → Outcome α) (a : α) (n d : Nat), 2 ≤ n →
      op 1 = .rateLimited → op 2 = .ok a →
      withRetrySheets op n d = .ok a 2 d ∧ withRetryAirtable op n d = .ok a 2 30000) ∧
    (∀ (α : Type) (op : Nat → Outcome α) (e n d : Nat), 1 ≤ n →
      op 1 = .otherError e → withRetrySheets op n d = .thrown e 1 0) ∧
    (∀ (α : Type) (op : Nat → Outcome α) (e : Nat) (a : α) (n d : Nat), 2 ≤ n →
      op 1 = .otherError e → op 2 = .ok a →
      withRetryAirtable op n d = .ok a 2 d) := by
  refine ⟨?_, ?_, ?_, ?_⟩
  · intro α op a n d hn h1
    obtain ⟨m, rfl⟩ : ∃ m, n = m + 1 := ⟨n - 1, by omega⟩
    constructor
    · simp only [withRetrySheets, retrySheetsGo, h1]
    · simp only [withRetryAirtable, retryAirtableGo, h1]
  · intro α op a n d hn h1 h2
    obtain ⟨m, rfl⟩ : ∃ m, n = m + 2 := ⟨n - 2, by omega⟩
    constructor
    · simp only [withRetrySheets, retrySheetsGo, h1, h2]
      rw [if_neg (by omega : ¬(m + 1 = 0))]
      norm_num
    · simp only [withRetryAirtable, retryAirtableGo, h1, h2]
      rw [if_neg (by omega : ¬(m + 1 = 0))]
  · intro α op e n d hn h1
    obtain ⟨m, rfl⟩ : ∃ m, n = m + 1 := ⟨n - 1, by omega⟩
    simp only [withRetrySheets, retrySheetsGo, h1]
  · intro α op e a n d hn h1 h2
    obtain ⟨m, rfl⟩ : ∃ m, n = m + 2 := ⟨n - 2, by omega⟩
    simp only [withRetryAirtable, retryAirtableGo, h1, h2]
    rw [if_neg (by omega : ¬(m + 1 = 0))]
    norm_num

/-- Operation failing with a non-rate-limit error on attempt 1 and
succeeding on attempt 2. -/
def c5cexOp : Nat → Outcome Nat := fun i => if i = 1 then .otherError 7 else .ok 42

/-- C5 counterexample: the `part_004` wrapper does not rethrow a
non-rate-limit error immediately — after the first attempt fails with error
7, it performs a second attempt (waiting 1000 ms of exponential backoff) and
returns its success, so the claimed policy does not hold for every retry
wrapper in the source. -/
theorem c5_retry_policy_counterexample :
    withRetryAirtable c5cexOp 3 1000 = .ok 42 2 1000 ∧
    withRetryAirtable c5cexOp 3 1000 ≠ .thrown 7 1 0 := by
  constructor
  · rfl
  · decide

theorem c5_retry_policy_witness :
    (withRetrySheets (fun _ => (Outcome.ok 5 : Outcome Nat)) 3 1000 = .ok 5 1 0 ∧
      withRetryAirtable (fun _ => (Outcome.ok 5 : Outcome Nat)) 3 1000 = .ok 5 1 0) ∧
    (withRetrySheets (fun i => if i = 1 then (Outcome.rateLimited : Outcome Nat)
        else .ok 5) 3 1000 = .ok 5 2 1000 ∧
      withRetryAirtable (fun i => if i = 1 then (Outcome.rateLimited : Outcome Nat)
        else .ok 5) 3 1000 = .ok 5 2 30000) ∧
    withRetrySheets (fun i => if i = 1 then (Outcome.otherError 9 : Outcome Nat)
      else .ok 5) 3 1000 = .thrown 9 1 0 ∧
    withRetryAirtable (fun i => if i = 1 then (Outcome.otherError 9 : Outcome Nat)
      else .ok 5) 3 1000 = .ok 5 2 1000 :=
  ⟨c5_retry_policy.1 Nat _ 5 3 1000 (by omega) rfl,
   c5_retry_policy.2.1 Nat _ 5 3 1000 (by omega) rfl rfl,
   c5_retry_policy.2.2.1 Nat _ 9 3 1000 (by omega) rfl,
   c5_retry_policy.2.2.2 Nat _ 9 5 3 1000 (by omega) rfl rfl⟩

/-! ### Claim C1 -/

/-- Store already holding a record for the email being submitted. -/
def c1store : AStore :=
  [{ id := 0, email := "a@x.com", lastname := "Lee", key1 := "not_scanned",
     key2 := "not_scanned", key3 := "not_scanned" }]

/-- C1: per-email uniqueness of record creation.  First conjunct: in the
interleaving model of any number of concurrent same-email submits serialized
by `withEmailLock`, every reachable state has issued at most one create, and
no create at all when the store already held a record for the email.  Second
conjunct: the sequential submit path, when the search finds an existing
record, returns that record or a conflict and performs no create (the store
is returned unchanged). -/
theorem c1_unique_create :
    (∀ (n : Nat) (b0 : Bool) (s : CSys), ReachableC n b0 s →
      s.creates ≤ 1 ∧ (b0 = true → s.creates = 0)) ∧
    (∀ (store : AStore) (nextId : Nat) (email lastname : String),
      (findA store (lowerStr email)).isSome = true →
      (airtableSubmit store nextId email lastname).2 = store ∧
      ((airtableSubmit store nextId email lastname).1 = .conflict409 ∨
        ∃ rid, (airtableSubmit store nextId email lastname).1 = .okExisting rid)) := by
  constructor
  · intro n b0 s hreach
    have inv := invC_reachable hreach
    exact ⟨inv.createsLe, inv.initNoCreate⟩
  · intro store nextId email lastname hsome
    cases hf : findA store (lowerStr email) with
    | none =>
      rw [hf] at hsome
      simp at hsome
    | some rec =>
      simp only [airtableSubmit, hf]
      by_cases hcond : rec.lastname ≠ "" ∧ lowerStr rec.lastname ≠ lowerStr lastname
      · rw [if_pos hcond]
        exact ⟨rfl, Or.inl rfl⟩
      · rw [if_neg hcond]
        exact ⟨rfl, Or.inr ⟨rec.id, rfl⟩⟩

theorem c1_unique_create_witness :
    ((initSys 2 false).creates ≤ 1 ∧ (false = true → (initSys 2 false).creates = 0)) ∧
    ((airtableSubmit c1store 1 "A@X.com" "Lee").2 = c1store ∧
      ((airtableSubmit c1store 1 "A@X.com" "Lee").1 = .conflict409 ∨
        ∃ rid, (airtableSubmit c1store 1 "A@X.com" "Lee").1 = .okExisting rid)) :=
  ⟨c1_unique_create.1 2 false (initSys 2 false) Relation.ReflTransGen.refl,
   c1_unique_create.2 c1store 1 "A@X.com" "Lee" (by decide)⟩

/-! ### Claim C2 -/

/-- C2 (amended): when the record found for the submitted email has a
non-empty stored lastname that differs case-insensitively from the submitted
one, `/api/harty/submit` returns 409 `EMAIL_ALREADY_USED` and performs no
write — the sheet, including the stored lastname, is returned unchanged.
(When the stored lastname cell is empty, the `existingLastname && ...` guard
is skipped and the submit auto-checks the user in instead.) -/
theorem c2_conflict_no_write (sheet : Sheet) (email lastname : String) (u : UserRec)
    (hfind : findUserByEmail sheet email = some u)
    (hnonempty : u.lastName ≠ "")
    (hdiff : lowerStr u.lastName ≠ lowerStr lastname)
    (hemail : email ≠ "") (hlast : lastname ≠ "") :
    submitHarty "ENABLE" sheet email lastname = (.conflict409, sheet) := by
  simp only [submitHarty, hfind]
  rw [if_neg (by simp : ¬("ENABLE" ≠ "ENABLE")),
    if_neg (by simp [hemail, hlast] : ¬(email = "" ∨ lastname = "")),
    if_pos ⟨hnonempty, hdiff⟩]

/-- Sheet holding a record for `a@x.com` with stored lastname `Smith`. -/
def c2sheet : Sheet :=
  [{ firstName := "A", lastName := "Smith", email := "a@x.com",
     checkin := "checked-in", registerKey := "", projectShowcaseKey := "",
     afternoonSessionKey := "", redeemKey := "", code := "" }]

theorem c2_conflict_no_write_witness :
    submitHarty "ENABLE" c2sheet "a@x.com" "Lee" = (.conflict409, c2sheet) :=
  c2_conflict_no_write c2sheet "a@x.com" "Lee"
    { rowIndex := 0, firstName := "A", lastName := "Smith", email := "a@x.com",
      checkin := "checked-in", registerKey := "", projectShowcaseKey := "",
      afternoonSessionKey := "", redeemKey := "FALSE", code := "" }
    (by decide) (by decide) (by decide) (by decide) (by decide)

/-- Sheet holding a record for `a@x.com` whose stored lastname cell is
empty. -/
def c2cexSheet : Sheet :=
  [{ firstName := "", lastName := "", email := "a@x.com", checkin := "",
     registerKey := "", projectShowcaseKey := "", afternoonSessionKey := "",
     redeemKey := "", code := "" }]

/-- C2 counterexample: the store holds a record for the email whose stored
lastname (the empty string) differs case-insensitively from the submitted
`Lee`, yet the submit does not return 409 — the falsy-lastname guard skips
the conflict check — and it writes to the store (auto-check-in). -/
theorem c2_conflict_no_write_counterexample :
    (submitHarty "ENABLE" c2cexSheet "a@x.com" "Lee").1 ≠ SubmitResp.conflict409 ∧
    (submitHarty "ENABLE" c2cexSheet "a@x.com" "Lee").2 ≠ c2cexSheet := by
  decide

/-! ### Claim C3 -/

/-- C3: once keys 1-3 are all `scanned`, every read of the record through
`GET /api/harty/user/:email` reports the redeem flag enabled — regardless of
the stored redeem-key cell, so in particular after a failed eager write left
it stale — and the read itself writes `TRUE` to the redeem column (the
self-healing lazy trigger).  In addition (second conjunct) the eager trigger
`checkAndUpdateRedeemKey` writes `TRUE` whenever the completed key set is
observed with a stale flag. -/
theorem c3_redeem_selfheal :
    (∀ (sheet : Sheet) (email : String) (u : UserRec),
      findUserByEmail sheet email = some u → email ≠ "" →
      u.registerKey = "scanned" → u.projectShowcaseKey = "scanned" →
      u.afternoonSessionKey = "scanned" →
      ∃ d, (getUserEndpoint sheet email).1 = .ok d ∧ d.redeemKeyEnabled = true ∧
        redeemTrueAt (getUserEndpoint sheet email).2 u.rowIndex) ∧
    (∀ (sheet : Sheet) (u : UserRec),
      u.registerKey = "scanned" → u.projectShowcaseKey = "scanned" →
      u.afternoonSessionKey = "scanned" → u.redeemKey ≠ "TRUE" →
      checkAndUpdateRedeemKey sheet u =
        (updateAt sheet u.rowIndex (fun r => { r with redeemKey := "TRUE" }), true)) := by
  constructor
  · intro sheet email u hfind hemail h1 h2 h3
    obtain ⟨r0, hr0, hu⟩ := findUserByEmail_spec hfind
    by_cases hstored : u.redeemKey = "TRUE"
    · simp only [getUserEndpoint, if_neg hemail, hfind, h1, h2, h3, hstored]
      norm_num
      intro r hr
      rw [hr0] at hr
      have h4 : some r0 = some r := hr
      rw [← Option.some.inj h4]
      have h5 : jsOr r0.redeemKey "FALSE" = "TRUE" := by
        rw [hu] at hstored
        exact hstored
      rw [jsOr] at h5
      by_cases h6 : r0.redeemKey = ""
      · rw [if_pos h6] at h5
        exact absurd h5 (by decide)
      · rwa [if_neg h6] at h5
    · simp only [getUserEndpoint, if_neg hemail, hfind, h1, h2, h3, hstored]
      norm_num
      intro r hr
      rw [updateAt_getElem?, if_pos rfl, hr0] at hr
      have h4 : some { r0 with redeemKey := "TRUE" } = some r := hr
      rw [← Option.some.inj h4]
  · intro sheet u h1 h2 h3 h4
    rw [checkAndUpdateRedeemKey, if_pos ⟨h1, h2, h3, h4⟩]

/-- Sheet with all three keys scanned but a stale (empty) redeem cell, the
state left by a failed eager redeem write. -/
def c3sheet : Sheet :=
  [{ firstName := "A", lastName := "Lee", email := "a@x.com",
     checkin := "checked-in", registerKey := "scanned",
     projectShowcaseKey := "scanned", afternoonSessionKey := "scanned",
     redeemKey := "", code := "" }]

def c3urec : UserRec :=
  { rowIndex := 0, firstName := "A", lastName := "Lee", email := "a@x.com",
    checkin := "checked-in", registerKey := "scanned",
    projectShowcaseKey := "scanned", afternoonSessionKey := "scanned",
    redeemKey := "FALSE", code := "" }

theorem c3_redeem_selfheal_witness :
    (∃ d, (getUserEndpoint c3sheet "a@x.com").1 = .ok d ∧
      d.redeemKeyEnabled = true ∧
      redeemTrueAt (getUserEndpoint c3sheet "a@x.com").2 c3urec.rowIndex) ∧
    checkAndUpdateRedeemKey c3sheet c3urec =
      (updateAt c3sheet c3urec.rowIndex (fun r => { r with redeemKey := "TRUE" }),
       true) :=
  ⟨c3_redeem_selfheal.1 c3sheet "a@x.com" c3urec (by decide) (by decide) rfl rfl rfl,
   c3_redeem_selfheal.2 c3sheet c3urec rfl rfl rfl (by decide)⟩

/-! ### Claim C4 -/

/-- C4 (amended): a true redeem flag is preserved by submit/auto-check-in,
by the key-update endpoint (including its eager redeem trigger), by the
save-redeem-code endpoint and by the user-read endpoint — none of these ever
resets it.  The exception is the generic whole-row update endpoint
(`/api/harty/update` via `updateUserRecord`), which overwrites the redeem
column with the supplied value or the `FALSE` default, so a request omitting
`redeemKey` resets a true flag (final conjunct). -/
theorem c4_redeem_monotonic :
    (∀ (mission : String) (sheet : Sheet) (email lastname : String) (i : Nat),
      redeemTrueAt sheet i →
      redeemTrueAt (submitHarty mission sheet email lastname).2 i) ∧
    (∀ (mission : String) (sheet : Sheet) (recordId : Option Nat)
      (keyField status : String) (i : Nat), redeemTrueAt sheet i →
      redeemTrueAt (updateKeyEndpoint mission sheet recordId keyField status).2 i) ∧
    (∀ (mission : String) (sheet : Sheet) (email code : String) (i : Nat),
      redeemTrueAt sheet i →
      redeemTrueAt (saveRedeemCode mission sheet email code).2 i) ∧
    (∀ (sheet : Sheet) (email : String) (i : Nat), redeemTrueAt sheet i →
      redeemTrueAt (getUserEndpoint sheet email).2 i) ∧
    (∀ (sheet : Sheet) (i : Nat) (f : UpdateFields), f.redeemKey = none →
      ∀ r, ((updateEndpoint "ENABLE" sheet (some i) (some f)).2)[i]? = some r →
        r.redeemKey = "FALSE") := by
  refine ⟨?_, ?_, ?_, ?_, ?_⟩
  · intro mission sheet email lastname i h
    by_cases hm : mission ≠ "ENABLE"
    · simp only [submitHarty, if_pos hm]
      exact h
    · by_cases he : email = "" ∨ lastname = ""
      · simp only [submitHarty, if_neg hm, if_pos he]
        exact h
      · cases hfind : findUserByEmail sheet email with
        | none =>
          simp only [submitHarty, if_neg hm, if_neg he, hfind]
          exact h
        | some u =>
          simp only [submitHarty, if_neg hm, if_neg he, hfind]
          by_cases hconf : u.lastName ≠ "" ∧ lowerStr u.lastName ≠ lowerStr lastname
          · rw [if_pos hconf]
            exact h
          · rw [if_neg hconf]
            by_cases hck : u.checkin = "" ∨ u.checkin ≠ "checked-in"
            · rw [if_pos hck]
              obtain ⟨r0, hr0, hu⟩ := findUserByEmail_spec hfind
              refine redeemTrueAt_updateAt ?_ h
              intro r hrj hrT
              have hrr : r0 = r := Option.some.inj (hr0.symm.trans hrj)
              have hur : u.redeemKey = "TRUE" := by
                rw [hu]
                show jsOr r0.redeemKey "FALSE" = "TRUE"
                rw [hrr, hrT]
                decide
              show jsOrOpt (some (jsOr u.redeemKey "FALSE")) "FALSE" = "TRUE"
              rw [hur]
              decide
            · rw [if_neg hck]
              exact h
  · intro mission sheet recordId keyField status i h
    by_cases hm : mission ≠ "ENABLE"
    · simp only [updateKeyEndpoint, if_pos hm]
      exact h
    · cases recordId with
      | none =>
        simp only [updateKeyEndpoint, if_neg hm]
        exact h
      | some idx =>
        simp only [updateKeyEndpoint, if_neg hm]
        by_cases hempty : keyField = "" ∨ status = ""
        · rw [if_pos hempty]
          exact h
        rw [if_neg hempty]
        by_cases hvalid : ¬ validKeyField keyField = true
        · rw [if_pos hvalid]
          exact h
        rw [if_neg hvalid]
        have h1 : redeemTrueAt (updateAt sheet idx (setKeyCell keyField status)) i :=
          redeemTrueAt_updateAt
            (fun r _ hr => by rw [setKeyCell_redeemKey]; exact hr) h
        by_cases htrig : status = "scanned" ∧ (keyField = "key1 status" ∨
            keyField = "key2 status" ∨ keyField = "key3 status")
        · rw [if_pos htrig]
          cases hem : getUserEmailByRowIndex
              (updateAt sheet idx (setKeyCell keyField status)) idx with
          | none =>
            simp only [hem]
            exact h1
          | some em =>
            simp only [hem]
            cases hf2 : findUserByEmail
                (updateAt sheet idx (setKeyCell keyField status)) em with
            | none =>
              simp only [hf2]
              exact h1
            | some u2 =>
              simp only [hf2]
              rw [checkAndUpdateRedeemKey]
              by_cases hcr : u2.registerKey = "scanned" ∧
                  u2.projectShowcaseKey = "scanned" ∧
                  u2.afternoonSessionKey = "scanned" ∧ u2.redeemKey ≠ "TRUE"
              · rw [if_pos hcr]
                exact redeemTrueAt_updateAt (fun r _ _ => rfl) h1
              · rw [if_neg hcr]
                exact h1
        · rw [if_neg htrig]
          exact h1
  · intro mission sheet email code i h
    by_cases hm : mission ≠ "ENABLE"
    · simp only [saveRedeemCode, if_pos hm]
      exact h
    · by_cases he : email = "" ∨ code = ""
      · simp only [saveRedeemCode, if_neg hm, if_pos he]
        exact h
      · cases hf : findUserByEmail sheet email with
        | none =>
          simp only [saveRedeemCode, if_neg hm, if_neg he, hf]
          exact h
        | some u =>
          simp only [saveRedeemCode, if_neg hm, if_neg he, hf]
          exact redeemTrueAt_updateAt (fun r _ hr => hr) h
  · intro sheet email i h
    by_cases he : email = ""
    · simp only [getUserEndpoint, if_pos he]
      exact h
    · cases hf : findUserByEmail sheet email with
      | none =>
        simp only [getUserEndpoint, if_neg he, hf]
        exact h
      | some u =>
        simp only [getUserEndpoint, if_neg he, hf]
        by_cases hcond : ¬(u.redeemKey = "TRUE") ∧
            (if u.registerKey = "scanned" then "scanned" else "not_scanned") = "scanned" ∧
            (if u.projectShowcaseKey = "scanned" then "scanned" else "not_scanned") = "scanned" ∧
            (if u.afternoonSessionKey = "scanned" then "scanned" else "not_scanned") = "scanned"
        · rw [if_pos hcond]
          exact redeemTrueAt_updateAt (fun r _ _ => rfl) h
        · rw [if_neg hcond]
          exact h
  · intro sheet i f hnone r hr
    have hunf : (updateEndpoint "ENABLE" sheet (some i) (some f)).2 =
        updateAt sheet i (fun _ => updateRowFromFields f) := by
      simp only [updateEndpoint, updateUserRecord,
        if_neg (by simp : ¬("ENABLE" ≠ "ENABLE"))]
    rw [hunf, updateAt_getElem?, if_pos rfl] at hr
    cases hs : sheet[i]? with
    | none =>
      rw [hs] at hr
      simp at hr
    | some r0 =>
      rw [hs] at hr
      have h2 : some (updateRowFromFields f) = some r := hr
      rw [← Option.some.inj h2]
      show jsOrOpt f.redeemKey "FALSE" = "FALSE"
      rw [hnone]
      rfl

/-- Row with keys 1-3 scanned and the redeem flag already `TRUE`. -/
def c4row : Row :=
  { firstName := "A", lastName := "Lee", email := "a@x.com",
    checkin := "checked-in", registerKey := "scanned",
    projectShowcaseKey := "scanned", afternoonSessionKey := "scanned",
    redeemKey := "TRUE", code := "" }

def c4sheet : Sheet := [c4row]

/-- C4 counterexample: the record's redeem cell is `TRUE`, yet one generic
update request (with every field omitted) resets it to `FALSE` — so it is
not the case that every operation of the system preserves a true redeem
flag. -/
theorem c4_redeem_monotonic_counterexample :
    (c4sheet[0]?).map Row.redeemKey = some "TRUE" ∧
    (((updateEndpoint "ENABLE" c4sheet (some 0) (some emptyFields)).2)[0]?).map
      Row.redeemKey = some "FALSE" := by
  decide

theorem c4_redeem_monotonic_witness :
    redeemTrueAt (submitHarty "ENABLE" c4sheet "a@x.com" "Lee").2 0 ∧
    redeemTrueAt (updateKeyEndpoint "ENABLE" c4sheet (some 0) "key1 status"
      "scanned").2 0 ∧
    redeemTrueAt (saveRedeemCode "ENABLE" c4sheet "a@x.com" "CODE1").2 0 ∧
    redeemTrueAt (getUserEndpoint c4sheet "a@x.com").2 0 ∧
    (∀ r, ((updateEndpoint "ENABLE" c4sheet (some 0) (some emptyFields)).2)[0]? =
      some r → r.redeemKey = "FALSE") := by
  have hred : redeemTrueAt c4sheet 0 := by
    intro r hr
    have h2 : some c4row = some r := hr
    rw [← Option.some.inj h2]
    rfl
  exact ⟨c4_redeem_monotonic.1 "ENABLE" c4sheet "a@x.com" "Lee" 0 hred,
    c4_redeem_monotonic.2.1 "ENABLE" c4sheet (some 0) "key1 status" "scanned" 0 hred,
    c4_redeem_monotonic.2.2.1 "ENABLE" c4sheet "a@x.com" "CODE1" 0 hred,
    c4_redeem_monotonic.2.2.2.1 c4sheet "a@x.com" 0 hred,
    c4_redeem_monotonic.2.2.2.2 c4sheet 0 emptyFields rfl⟩

/-! ### Claim C7 -/

/-- C7: key collection on a game session is idempotent and bounded.  An
unknown session gets 404; a key outside `requiredKeys` gets 400 with the
session unchanged; the first collection of a required key succeeds and
appends it; any repeat gets the already-collected 400 with the session
unchanged; and on every reachable session state the collected keys contain
no duplicates and never outnumber the required keys. -/
theorem c7_idempotent_collect :
    (∀ (k t m : String), collectKey none k t m = (.notFound404, none)) ∧
    (∀ (s : Session) (k t m : String), k ∉ s.requiredKeys →
      collectKey (some s) k t m = (.invalidKey400, some s)) ∧
    (∀ (s : Session) (k t m : String), k ∈ s.requiredKeys → k ∈ s.collectedKeys →
      collectKey (some s) k t m = (.alreadyCollected400, some s)) ∧
    (∀ (s : Session) (k t m : String), k ∈ s.requiredKeys → k ∉ s.collectedKeys →
      ∃ compl s', collectKey (some s) k t m =
          (.ok (s.collectedKeys.length + 1) s.requiredKeys.length compl, some s') ∧
        s'.collectedKeys = s.collectedKeys ++ [k] ∧
        s'.requiredKeys = s.requiredKeys) ∧
    (∀ s : Session, SessionReach s →
      s.collectedKeys.Nodup ∧ s.collectedKeys.length ≤ s.requiredKeys.length) := by
  refine ⟨fun k t m => rfl, ?_, ?_, ?_, ?_⟩
  · intro s k t m hk
    have h1 : includesStr s.requiredKeys k = false := by
      cases hx : includesStr s.requiredKeys k
      · rfl
      · exact absurd ((includesStr_eq_true_iff _ _).mp hx) hk
    simp [collectKey, h1]
  · intro s k t m hk hc
    have h1 : includesStr s.requiredKeys k = true := (includesStr_eq_true_iff _ _).mpr hk
    have h2 : includesStr s.collectedKeys k = true := (includesStr_eq_true_iff _ _).mpr hc
    simp [collectKey, h1, h2]
  · intro s k t m hk hc
    have h1 : includesStr s.requiredKeys k = true := (includesStr_eq_true_iff _ _).mpr hk
    have h2 : includesStr s.collectedKeys k = false := by
      cases hx : includesStr s.collectedKeys k
      · rfl
      · exact absurd ((includesStr_eq_true_iff _ _).mp hx) hc
    simp only [collectKey, h1, h2, Bool.true_eq_false, Bool.false_eq_true,
      if_neg (by simp : ¬False), List.length_append, List.length_singleton]
    refine ⟨_, _, rfl, ?_, ?_⟩ <;> split <;> rfl
  · intro s hreach
    obtain ⟨hnodup, hsub, hreq⟩ := sessionInv_reach hreach
    refine ⟨hnodup, ?_⟩
    exact (hnodup.subperm fun x hx => hsub x hx).length_le

/-- Session that has already collected the first required key. -/
def c7sess : Session :=
  { collectedKeys := ["Engineering Access Key"]
    targetsFound := ["target1"]
    interactions := [.keyCollected "Engineering Access Key" "target1" "scan"]
    requiredKeys := ["Engineering Access Key", "Science Lab Key"]
    isCompleted := false }

theorem c7_idempotent_collect_witness :
    collectKey none "Science Lab Key" "t" "scan" = (.notFound404, none) ∧
    collectKey (some newSession) "Bogus Key" "t" "scan" =
      (.invalidKey400, some newSession) ∧
    collectKey (some c7sess) "Engineering Access Key" "t" "scan" =
      (.alreadyCollected400, some c7sess) ∧
    (∃ compl s', collectKey (some newSession) "Engineering Access Key" "t" "scan" =
        (.ok (newSession.collectedKeys.length + 1) newSession.requiredKeys.length
          compl, some s') ∧
      s'.collectedKeys = newSession.collectedKeys ++ ["Engineering Access Key"] ∧
      s'.requiredKeys = newSession.requiredKeys) ∧
    (newSession.collectedKeys.Nodup ∧
      newSession.collectedKeys.length ≤ newSession.requiredKeys.length) :=
  ⟨c7_idempotent_collect.1 "Science Lab Key" "t" "scan",
   c7_idempotent_collect.2.1 newSession "Bogus Key" "t" "scan" (by decide),
   c7_idempotent_collect.2.2.1 c7sess "Engineering Access Key" "t" "scan"
     (by decide) (by decide),
   c7_idempotent_collect.2.2.2.1 newSession "Engineering Access Key" "t" "scan"
     (by decide) (by decide),
   c7_idempotent_collect.2.2.2.2 newSession SessionReach.init⟩

/-! ### Claim C8 -/

/-- C8 (amended): every string of the known attack corpus is classified
malicious by a single pattern match; benign strings that avoid the signature
substrings (a plain name, a plain email address) are classified clean.  The
claim's universal clean-classification of ordinary names does not hold — see
the counterexample — because the quote/`ls `/`--` signatures fire on
legitimate name text, a false positive the design accepts. -/
theorem c8_validation_corpus :
    detectSQLInjection "\x27 OR 1=1 --" = true ∧
    detectSQLInjection "<script>alert(1)</script>" = true ∧
    detectSQLInjection "\x7b$ne:null\x7d" = true ∧
    detectSQLInjection "../../etc/passwd" = true ∧
    detectSQLInjection "John Smith" = false ∧
    detectSQLInjection "alice@example.com" = false := by
  refine ⟨?_, ?_, ?_, ?_, ?_, ?_⟩ <;> decide

/-- C8 counterexample: the ordinary surname `O'Brien` is classified
malicious (its apostrophe matches the quote-delimiter pattern), so benign
names are not always classified clean. -/
theorem c8_validation_corpus_counterexample :
    detectSQLInjection "O\x27Brien" = true := by
  decide

/-! ### Claim C9 -/

/-- Sheet whose single record has keys 1-3 scanned and a stale redeem
cell. -/
def c9sheet : Sheet :=
  [{ firstName := "A", lastName := "Lee", email := "a@x.com",
     checkin := "checked-in", registerKey := "scanned",
     projectShowcaseKey := "scanned", afternoonSessionKey := "scanned",
     redeemKey := "", code := "" }]

/-- C9 (amended): when the mission toggle is not `ENABLE`, the four mutating
endpoints (submit, update, update-key, save-redeem-code) short-circuit with
their `{success:false}` disabled response and leave the sheet unchanged.
The user-read endpoint, however, never consults the toggle, and its
self-healing redeem write can still mutate the store under `DISABLE` — see
the counterexample — so it is not true that the records are unchanged by
every request while the toggle is disabled. -/
theorem c9_toggle_shortcircuit (mission : String) (hm : mission ≠ "ENABLE")
    (sheet : Sheet) :
    (∀ email lastname, handle mission sheet (.submit email lastname) =
      (.submitR .disabled, sheet)) ∧
    (∀ recordId fields, handle mission sheet (.update recordId fields) =
      (.updateR .disabled, sheet)) ∧
    (∀ recordId keyField status,
      handle mission sheet (.updateKey recordId keyField status) =
      (.keyR .disabled, sheet)) ∧
    (∀ email code, handle mission sheet (.saveCode email code) =
      (.codeR .disabled, sheet)) ∧
    respDisabled (.submitR .disabled) = true ∧
    respDisabled (.updateR .disabled) = true ∧
    respDisabled (.keyR .disabled) = true ∧
    respDisabled (.codeR .disabled) = true := by
  refine ⟨?_, ?_, ?_, ?_, rfl, rfl, rfl, rfl⟩
  · intro email lastname
    simp [handle, submitHarty, if_pos hm]
  · intro recordId fields
    simp [handle, updateEndpoint, if_pos hm]
  · intro recordId keyField status
    simp [handle, updateKeyEndpoint, if_pos hm]
  · intro email code
    simp [handle, saveRedeemCode, if_pos hm]

/-- C9 counterexample: with the toggle `DISABLE`, a single GET of the user
record still writes to the store (the lazy redeem trigger), so the stored
records are not unchanged by every request while the toggle is disabled. -/
theorem c9_toggle_shortcircuit_counterexample :
    (handle "DISABLE" c9sheet (.getUser "a@x.com")).2 ≠ c9sheet := by
  decide

theorem c9_toggle_shortcircuit_witness :
    (handle "DISABLE" [] (.submit "a@x.com" "Lee") = (.submitR .disabled, [])) ∧
    (handle "DISABLE" [] (.update (some 0) (some emptyFields)) =
      (.updateR .disabled, [])) ∧
    (handle "DISABLE" [] (.updateKey (some 0) "key1 status" "scanned") =
      (.keyR .disabled, [])) ∧
    (handle "DISABLE" [] (.saveCode "a@x.com" "C1") = (.codeR .disabled, [])) := by
  obtain ⟨h1, h2, h3, h4, -⟩ := c9_toggle_shortcircuit "DISABLE" (by decide) []
  exact ⟨h1 "a@x.com" "Lee", h2 (some 0) (some emptyFields),
    h3 (some 0) "key1 status" "scanned", h4 "a@x.com" "C1"⟩

/-! ### Claim C10 -/

/-- C10: `updateUserRecord` is a whole-row overwrite, not a partial update.
The row written at the target index is built solely from the supplied
`fields` — the previous row does not appear in it — with every omitted field
erased to its fixed default: empty string for the ordinary columns and
`FALSE` for the redeem column.  In particular an update omitting the key and
redeem fields loses previously scanned key statuses and a previously true
redeem flag. -/
theorem c10_whole_row_overwrite (sheet : Sheet) (i : Nat) (f : UpdateFields)
    (r0 : Row) (h : sheet[i]? = some r0) :
    (updateUserRecord sheet i f)[i]? = some (updateRowFromFields f) ∧
    (f.redeemKey = none → (updateRowFromFields f).redeemKey = "FALSE") ∧
    (f.registerKey = none → (updateRowFromFields f).registerKey = "") ∧
    (f.projectShowcaseKey = none → (updateRowFromFields f).projectShowcaseKey = "") ∧
    (f.afternoonSessionKey = none → (updateRowFromFields f).afternoonSessionKey = "") ∧
    (updateRowFromFields f).redeemKey = jsOrOpt f.redeemKey "FALSE" := by
  refine ⟨?_, ?_, ?_, ?_, ?_, rfl⟩
  · rw [updateUserRecord, updateAt_getElem?, if_pos rfl, h]
    rfl
  · intro hn
    show jsOrOpt f.redeemKey "FALSE" = "FALSE"
    rw [hn]
    rfl
  · intro hn
    show jsOrOpt f.registerKey "" = ""
    rw [hn]
    rfl
  · intro hn
    show jsOrOpt f.projectShowcaseKey "" = ""
    rw [hn]
    rfl
  · intro hn
    show jsOrOpt f.afternoonSessionKey "" = ""
    rw [hn]
    rfl

/-- Update request supplying only a lastname. -/
def c10fields : UpdateFields :=
  { firstname := none, lastname := some "New", email := none, checkin := none
    registerKey := none, projectShowcaseKey := none, afternoonSessionKey := none
    redeemKey := none, code := none }

def c10row : Row :=
  { firstName := "A", lastName := "Lee", email := "a@x.com",
    checkin := "checked-in", registerKey := "scanned",
    projectShowcaseKey := "scanned", afternoonSessionKey := "scanned",
    redeemKey := "TRUE", code := "C1" }

theorem c10_whole_row_overwrite_witness :
    (updateUserRecord [c10row] 0 c10fields)[0]? =
      some (updateRowFromFields c10fields) ∧
    (c10fields.redeemKey = none → (updateRowFromFields c10fields).redeemKey = "FALSE") ∧
    (c10fields.registerKey = none → (updateRowFromFields c10fields).registerKey = "") ∧
    (c10fields.projectShowcaseKey = none →
      (updateRowFromFields c10fields).projectShowcaseKey = "") ∧
    (c10fields.afternoonSessionKey = none →
      (updateRowFromFields c10fields).afternoonSessionKey = "") ∧
    (updateRowFromFields c10fields).redeemKey = jsOrOpt c10fields.redeemKey "FALSE" :=
  c10_whole_row_overwrite [c10row] 0 c10fields c10row (by decide)
